import Mathlib

/-!
Verification of the Librarium library-management service: a shallow
embedding of the loan/inventory transaction engine
(repository `CreateLoan` / `ReturnLoan`), the book search's ORDER BY
construction (`Search`), the loan query paths (`SearchLoans`,
`GetActiveLoansByUserID`) with their JSON rendering, and the
role-based authorization middleware (`RoleRequiredMiddleware`).

Relational rows are lists of records; SQL point reads are `List.find?`
on the key column, and `UPDATE ... WHERE id = ?` is a `List.map` that
rewrites every matching row (matching the SQL semantics where the
rows-affected count may be zero).  A transaction is modelled by the
`TxOutcome` record: the statements of the Go function are applied in
order to a working copy of the store, any early `return err` leaves
`committed = false`, and only a successful `tx.Commit()` sets
`committed = true`; the database's rollback guarantee is then the
`commitState` observation that chooses the working state exactly when
the transaction committed.  Store-level failures of individual
statements (the `err != nil` branches of the Go code) are injected
through the `Faults` record so that every early-return path of the
source is reachable in the model.
-/

namespace Librarium

/-- A row of the `books` table (`models.Book`, persisted columns). -/
structure Book where
  id : Int
  title : String
  publishedDate : String
  isbn : String
  stock : Int
  authorId : Int
deriving Repr, DecidableEq

/-- A row of the `users` table (`models.User` with its `role` column). -/
structure User where
  id : Int
  username : String
  role : String
deriving Repr, DecidableEq

/-- A row of the `loans` table (`models.Loan`): `returnDate = none`
models the NULL `return_date` column of an active loan. -/
structure Loan where
  id : Int
  bookId : Int
  userId : Int
  loanDate : Int
  returnDate : Option Int
deriving Repr, DecidableEq

/-- The relational store: the `books` and `loans` tables, plus the
autoincrement counter that SQLite uses to assign the next loan id. -/
structure Store where
  books : List Book
  loans : List Loan
  nextLoanId : Int
deriving Repr, DecidableEq

/-- Errors surfaced by the repository layer: `ErrNotFound`, the
`"no stock available"` and `"book already returned"` business errors,
and an opaque store/driver failure. -/
inductive RepoError where
  | notFound
  | noStock
  | alreadyReturned
  | storeError
deriving Repr, DecidableEq

/-- Fault injection for the store statements of one transaction: each
flag makes the corresponding `err != nil` branch of the Go source fire. -/
structure Faults where
  beginFail : Bool
  readFail : Bool
  firstWriteFail : Bool
  secondWriteFail : Bool
  commitFail : Bool
deriving Repr, DecidableEq

/-- The fault-free execution: every store statement succeeds. -/
def noFaults : Faults := ⟨false, false, false, false, false⟩

/-- Outcome of one transaction: whether `tx.Commit()` succeeded, the
working state the transaction built, and the error returned to the
caller (`none` on success). -/
structure TxOutcome where
  committed : Bool
  txState : Store
  err : Option RepoError
deriving Repr, DecidableEq

/-- The state observable after the transaction ends: the working state
if the transaction committed, otherwise the pre-transaction state
(`defer tx.Rollback()` plus the database's atomicity guarantee). -/
def commitState (s : Store) (t : TxOutcome) : Store :=
  if t.committed then t.txState else s

/-- `SELECT ... FROM books WHERE id = ?` (point read on the key). -/
def findBook (books : List Book) (bookId : Int) : Option Book :=
  books.find? (fun b => b.id == bookId)

/-- `UPDATE books SET stock = stock + delta WHERE id = ?`: rewrites
every matching row; zero matching rows leave the table unchanged. -/
def updateStock (books : List Book) (bookId delta : Int) : List Book :=
  books.map (fun b => if b.id == bookId then { b with stock := b.stock + delta } else b)

/-- `SELECT ... FROM loans WHERE id = ?` (point read on the key). -/
def findLoan (loans : List Loan) (loanId : Int) : Option Loan :=
  loans.find? (fun l => l.id == loanId)

/-- `UPDATE loans SET return_date = ? WHERE id = ?`. -/
def setReturnDate (loans : List Loan) (loanId : Int) (now : Int) : List Loan :=
  loans.map (fun l => if l.id == loanId then { l with returnDate := some now } else l)

/-- `sqliteLoanRepository.CreateLoan`: begin a transaction, read the
book's stock (missing row ⇒ `ErrNotFound`), reject `stock <= 0` with
the no-stock error, decrement the stock, insert the loan row with a
NULL return date, and commit.  Every failing statement returns with
`committed = false`. -/
def CreateLoan (f : Faults) (s : Store) (bookId userId : Int) (now : Int) : TxOutcome :=
  if f.beginFail then ⟨false, s, some .storeError⟩
  else if f.readFail then ⟨false, s, some .storeError⟩
  else
    match findBook s.books bookId with
    | none => ⟨false, s, some .notFound⟩
    | some b =>
      if b.stock ≤ 0 then ⟨false, s, some .noStock⟩
      else
        let s1 : Store := { s with books := updateStock s.books bookId (-1) }
        if f.firstWriteFail then ⟨false, s1, some .storeError⟩
        else
          let s2 : Store :=
            { s1 with
                loans := s1.loans ++ [⟨s.nextLoanId, bookId, userId, now, none⟩],
                nextLoanId := s.nextLoanId + 1 }
          if f.secondWriteFail then ⟨false, s2, some .storeError⟩
          else if f.commitFail then ⟨false, s2, some .storeError⟩
          else ⟨true, s2, none⟩

/-- `sqliteLoanRepository.ReturnLoan`: begin a transaction, read the
loan (missing row ⇒ `ErrNotFound`), reject an already-set return date,
set the return date, increment the referenced book's stock, and
commit.  Every failing statement returns with `committed = false`. -/
def ReturnLoan (f : Faults) (s : Store) (loanId : Int) (now : Int) : TxOutcome :=
  if f.beginFail then ⟨false, s, some .storeError⟩
  else if f.readFail then ⟨false, s, some .storeError⟩
  else
    match findLoan s.loans loanId with
    | none => ⟨false, s, some .notFound⟩
    | some l =>
      if l.returnDate.isSome then ⟨false, s, some .alreadyReturned⟩
      else
        let s1 : Store := { s with loans := setReturnDate s.loans loanId now }
        if f.firstWriteFail then ⟨false, s1, some .storeError⟩
        else
          let s2 : Store := { s1 with books := updateStock s1.books l.bookId 1 }
          if f.secondWriteFail then ⟨false, s2, some .storeError⟩
          else if f.commitFail then ⟨false, s2, some .storeError⟩
          else ⟨true, s2, none⟩

/-- `CreateLoanHandler`'s mapping from repository errors to HTTP
status codes: the no-stock business error is a 409 Conflict,
`ErrNotFound` is 404, anything else is 500. -/
def createLoanStatus : RepoError → Nat
  | .noStock => 409
  | .notFound => 404
  | _ => 500

/-- `ReturnLoanHandler`'s mapping from repository errors to HTTP
status codes: the already-returned business error is a 409 Conflict,
`ErrNotFound` is 404, anything else is 500. -/
def returnLoanStatus : RepoError → Nat
  | .alreadyReturned => 409
  | .notFound => 404
  | _ => 500

/-! ### Structural lemmas about the two transactions -/

lemma findBook_mem {books : List Book} {bookId : Int} {b : Book}
    (h : findBook books bookId = some b) : b ∈ books ∧ b.id = bookId := by
  refine ⟨List.mem_of_find?_eq_some h, ?_⟩
  have hp := List.find?_some h
  simpa using hp

lemma findBook_none {books : List Book} {bookId : Int}
    (h : findBook books bookId = none) : ∀ b ∈ books, b.id ≠ bookId := by
  intro b hb
  have := List.find?_eq_none.mp h b hb
  simpa using this

lemma findLoan_mem {loans : List Loan} {loanId : Int} {l : Loan}
    (h : findLoan loans loanId = some l) : l ∈ loans ∧ l.id = loanId := by
  refine ⟨List.mem_of_find?_eq_some h, ?_⟩
  have hp := List.find?_some h
  simpa using hp

/-- Full case analysis of `CreateLoan`: either the transaction did not
commit and an error is reported, or it committed, no error is
reported, a book with positive stock was found, and the working state
holds exactly the two paired mutations. -/
lemma createLoan_elim (f : Faults) (s : Store) (bookId userId now : Int) :
    ((CreateLoan f s bookId userId now).committed = false ∧
      (CreateLoan f s bookId userId now).err.isSome = true) ∨
    ((CreateLoan f s bookId userId now).committed = true ∧
      (CreateLoan f s bookId userId now).err = none ∧
      (∃ b, findBook s.books bookId = some b ∧ 0 < b.stock) ∧
      (CreateLoan f s bookId userId now).txState =
        ⟨updateStock s.books bookId (-1),
         s.loans ++ [⟨s.nextLoanId, bookId, userId, now, none⟩],
         s.nextLoanId + 1⟩) := by
  unfold CreateLoan
  rcases f with ⟨b1, b2, b3, b4, b5⟩
  cases b1 <;> cases b2 <;> simp only [Bool.false_eq_true, if_false, if_true] <;>
    try (left; exact ⟨by trivial, by trivial⟩)
  cases hfb : findBook s.books bookId with
  | none => left; exact ⟨by trivial, by trivial⟩
  | some b =>
    by_cases hst : b.stock ≤ 0
    · simp only [hst, if_true]
      left; exact ⟨by trivial, by trivial⟩
    · simp only [hst, if_false]
      cases b3 <;> cases b4 <;> cases b5 <;>
        simp only [Bool.false_eq_true, if_false, if_true] <;>
        try (left; exact ⟨by trivial, by trivial⟩)
      right
      exact ⟨by trivial, by trivial, ⟨b, rfl, by omega⟩, by trivial⟩

/-- Full case analysis of `ReturnLoan`: either the transaction did not
commit and an error is reported, or it committed, no error is
reported, an active loan was found, and the working state holds
exactly the two paired mutations. -/
lemma returnLoan_elim (f : Faults) (s : Store) (loanId now : Int) :
    ((ReturnLoan f s loanId now).committed = false ∧
      (ReturnLoan f s loanId now).err.isSome = true) ∨
    ((ReturnLoan f s loanId now).committed = true ∧
      (ReturnLoan f s loanId now).err = none ∧
      (∃ l, findLoan s.loans loanId = some l ∧ l.returnDate = none ∧
        (ReturnLoan f s loanId now).txState =
          ⟨updateStock s.books l.bookId 1,
           setReturnDate s.loans loanId now,
           s.nextLoanId⟩)) := by
  unfold ReturnLoan
  rcases f with ⟨b1, b2, b3, b4, b5⟩
  cases b1 <;> cases b2 <;> simp only [Bool.false_eq_true, if_false, if_true] <;>
    try (left; exact ⟨by trivial, by trivial⟩)
  cases hfl : findLoan s.loans loanId with
  | none => left; exact ⟨by trivial, by trivial⟩
  | some l =>
    cases hrd : l.returnDate with
    | some d =>
      simp only [hrd, Option.isSome_some, if_true]
      left; exact ⟨by trivial, by trivial⟩
    | none =>
      simp only [hrd, Option.isSome_none, Bool.false_eq_true, if_false]
      cases b3 <;> cases b4 <;> cases b5 <;>
        simp only [Bool.false_eq_true, if_false, if_true] <;>
        try (left; exact ⟨by trivial, by trivial⟩)
      right
      exact ⟨by trivial, by trivial, ⟨l, rfl, hrd, by trivial⟩⟩

/-- A concrete three-copy store used to instantiate the theorems:
one book (id 1, stock 3) and one already-returned loan (id 5). -/
def demoStore : Store :=
  ⟨[⟨1, "Dune", "1965-08-01", "9780441013593", 3, 1⟩],
   [⟨5, 1, 7, 50, some 60⟩], 6⟩

/-- C1: any failure of a borrow or return transaction (missing row,
business-rule rejection, or an injected store error on any statement)
leaves the observable store exactly in its pre-operation state, and a
success applies exactly the two paired mutations together: borrow
commits precisely the stock decrement plus the new open loan row, and
return commits precisely the loan closure plus the stock increment. -/
theorem loanTransactions_atomic (f : Faults) (s : Store) (bookId userId loanId now : Int) :
    ((CreateLoan f s bookId userId now).err.isSome = true →
      commitState s (CreateLoan f s bookId userId now) = s) ∧
    ((CreateLoan f s bookId userId now).err = none →
      commitState s (CreateLoan f s bookId userId now) =
        ⟨updateStock s.books bookId (-1),
         s.loans ++ [⟨s.nextLoanId, bookId, userId, now, none⟩],
         s.nextLoanId + 1⟩) ∧
    ((ReturnLoan f s loanId now).err.isSome = true →
      commitState s (ReturnLoan f s loanId now) = s) ∧
    ((ReturnLoan f s loanId now).err = none →
      ∃ l, findLoan s.loans loanId = some l ∧ l.returnDate = none ∧
        commitState s (ReturnLoan f s loanId now) =
          ⟨updateStock s.books l.bookId 1,
           setReturnDate s.loans loanId now,
           s.nextLoanId⟩) := by
  refine ⟨?_, ?_, ?_, ?_⟩
  · intro h
    rcases createLoan_elim f s bookId userId now with ⟨hc, _⟩ | ⟨_, he, _, _⟩
    · simp [commitState, hc]
    · rw [he] at h; simp at h
  · intro h
    rcases createLoan_elim f s bookId userId now with ⟨_, he⟩ | ⟨hc, _, _, ht⟩
    · rw [h] at he; simp at he
    · simp [commitState, hc, ht]
  · intro h
    rcases returnLoan_elim f s loanId now with ⟨hc, _⟩ | ⟨_, he, _⟩
    · simp [commitState, hc]
    · rw [he] at h; simp at h
  · intro h
    rcases returnLoan_elim f s loanId now with ⟨_, he⟩ | ⟨hc, _, l, hfl, hrd, ht⟩
    · rw [h] at he; simp at he
    · exact ⟨l, hfl, hrd, by simp [commitState, hc, ht]⟩

/-- Witness for `loanTransactions_atomic`: a fault-free borrow on the
demo store commits both mutations, and a return whose transaction
fails to begin leaves the store untouched. -/
theorem loanTransactions_atomic_witness :
    commitState demoStore (CreateLoan noFaults demoStore 1 7 100) =
      ⟨[⟨1, "Dune", "1965-08-01", "9780441013593", 2, 1⟩],
       [⟨5, 1, 7, 50, some 60⟩, ⟨6, 1, 7, 100, none⟩], 7⟩ ∧
    commitState demoStore (ReturnLoan ⟨true, false, false, false, false⟩ demoStore 5 200) =
      demoStore := by
  constructor
  · have h := (loanTransactions_atomic noFaults demoStore 1 7 5 100).2.1 (by decide)
    rw [h]; decide
  · exact (loanTransactions_atomic ⟨true, false, false, false, false⟩
      demoStore 1 7 5 200).2.2.1 (by decide)

/-! ### Sequences of loan-engine operations -/

/-- One operation of the loan engine, with its injected faults. -/
inductive LoanOp where
  | borrow (f : Faults) (bookId userId now : Int)
  | giveBack (f : Faults) (loanId now : Int)
deriving Repr, DecidableEq

/-- The observable store after one engine operation. -/
def applyLoanOp (s : Store) : LoanOp → Store
  | .borrow f bookId userId now => commitState s (CreateLoan f s bookId userId now)
  | .giveBack f loanId now => commitState s (ReturnLoan f s loanId now)

/-- The observable store after a finite sequence of engine operations. -/
def runLoanOps (s : Store) (ops : List LoanOp) : Store :=
  ops.foldl applyLoanOp s

/-- Every book row has non-negative stock. -/
def stocksNonneg (s : Store) : Prop := ∀ b ∈ s.books, 0 ≤ b.stock

/-- The `books` primary key is unique (the store's PK constraint). -/
def bookIdsNodup (s : Store) : Prop := (s.books.map Book.id).Nodup

lemma updateStock_map_id (books : List Book) (bookId delta : Int) :
    (updateStock books bookId delta).map Book.id = books.map Book.id := by
  unfold updateStock
  rw [List.map_map]
  apply List.map_congr_left
  intro b _
  by_cases h : b.id = bookId <;> simp [beq_iff_eq, h]

lemma applyLoanOp_map_id (s : Store) (o : LoanOp) :
    (applyLoanOp s o).books.map Book.id = s.books.map Book.id := by
  cases o with
  | borrow f bookId userId now =>
    rcases createLoan_elim f s bookId userId now with ⟨hc, _⟩ | ⟨hc, _, _, ht⟩
    · simp [applyLoanOp, commitState, hc]
    · simp [applyLoanOp, commitState, hc, ht, updateStock_map_id]
  | giveBack f loanId now =>
    rcases returnLoan_elim f s loanId now with ⟨hc, _⟩ | ⟨hc, _, l, _, _, ht⟩
    · simp [applyLoanOp, commitState, hc]
    · simp [applyLoanOp, commitState, hc, ht, updateStock_map_id]

lemma stocksNonneg_applyLoanOp {s : Store} (hnn : stocksNonneg s) (hnd : bookIdsNodup s)
    (o : LoanOp) : stocksNonneg (applyLoanOp s o) := by
  cases o with
  | borrow f bookId userId now =>
    rcases createLoan_elim f s bookId userId now with ⟨hc, _⟩ | ⟨hc, _, ⟨b, hfb, hpos⟩, ht⟩
    · simpa [applyLoanOp, commitState, hc] using hnn
    · intro b' hb'
      simp only [applyLoanOp, commitState, hc, if_true, ht] at hb'
      simp only [updateStock, List.mem_map] at hb'
      rcases hb' with ⟨b0, hb0, rfl⟩
      obtain ⟨hbmem, hbid⟩ := findBook_mem hfb
      by_cases hid : b0.id = bookId
      · have hb0b : b0 = b :=
          List.inj_on_of_nodup_map hnd hb0 hbmem (by rw [hid, hbid])
        subst hb0b
        have := hnn b0 hb0
        simp only [hid, beq_self_eq_true, if_true]
        omega
      · simp only [hid, beq_iff_eq, if_false]
        exact hnn b0 hb0
  | giveBack f loanId now =>
    rcases returnLoan_elim f s loanId now with ⟨hc, _⟩ | ⟨hc, _, l, _, _, ht⟩
    · simpa [applyLoanOp, commitState, hc] using hnn
    · intro b' hb'
      simp only [applyLoanOp, commitState, hc, if_true, ht] at hb'
      simp only [updateStock, List.mem_map] at hb'
      rcases hb' with ⟨b0, hb0, rfl⟩
      have := hnn b0 hb0
      by_cases hid : b0.id = l.bookId <;> simp only [hid, beq_self_eq_true, beq_iff_eq, if_true, if_false] <;> omega

lemma runLoanOps_preserves {s : Store} (hnn : stocksNonneg s) (hnd : bookIdsNodup s)
    (ops : List LoanOp) : stocksNonneg (runLoanOps s ops) := by
  induction ops generalizing s with
  | nil => simpa [runLoanOps] using hnn
  | cons o rest ih =>
    have h1 := stocksNonneg_applyLoanOp hnn hnd o
    have h2 : bookIdsNodup (applyLoanOp s o) := by
      unfold bookIdsNodup
      rw [applyLoanOp_map_id]
      exact hnd
    simpa [runLoanOps, List.foldl_cons] using ih h1 h2

/-- C2: from any store whose book ids are unique and whose stocks are
all non-negative, every finite sequence of borrow/return operations
(with arbitrary injected store faults) leaves every book's stock
non-negative: the borrow path refuses to decrement a stock it read as
`<= 0`, so the engine never drives a stock negative. -/
theorem stock_nonneg_invariant (s : Store) (ops : List LoanOp)
    (hnd : bookIdsNodup s) (hnn : stocksNonneg s) :
    stocksNonneg (runLoanOps s ops) :=
  runLoanOps_preserves hnn hnd ops

/-- Witness for `stock_nonneg_invariant`: a borrow followed by a
return on the demo store keeps every stock non-negative. -/
theorem stock_nonneg_invariant_witness :
    bookIdsNodup demoStore ∧ stocksNonneg demoStore ∧
    stocksNonneg (runLoanOps demoStore
      [.borrow noFaults 1 7 100, .giveBack noFaults 6 200]) := by
  refine ⟨?hnd, ?hnn, stock_nonneg_invariant demoStore _ ?hnd2 ?hnn2⟩
  case hnd => unfold bookIdsNodup; decide
  case hnn => unfold stocksNonneg; decide
  case hnd2 => unfold bookIdsNodup; decide
  case hnn2 => unfold stocksNonneg; decide

/-! ### Computation lemmas for the fault-free paths -/

lemma createLoan_noStock {s : Store} {bookId : Int} {b : Book}
    (hfb : findBook s.books bookId = some b) (hst : b.stock ≤ 0)
    (userId now : Int) :
    CreateLoan noFaults s bookId userId now = ⟨false, s, some .noStock⟩ := by
  unfold CreateLoan noFaults
  simp [hfb, hst]

lemma createLoan_success {s : Store} {bookId : Int} {b : Book}
    (hfb : findBook s.books bookId = some b) (hst : 0 < b.stock)
    (userId now : Int) :
    CreateLoan noFaults s bookId userId now =
      ⟨true,
       ⟨updateStock s.books bookId (-1),
        s.loans ++ [⟨s.nextLoanId, bookId, userId, now, none⟩],
        s.nextLoanId + 1⟩,
       none⟩ := by
  have hneg : ¬b.stock ≤ 0 := not_le.mpr hst
  unfold CreateLoan noFaults
  simp [hfb, hneg]

lemma returnLoan_alreadyReturned {s : Store} {loanId : Int} {l : Loan} {d : Int}
    (hfl : findLoan s.loans loanId = some l) (hrd : l.returnDate = some d)
    (now : Int) :
    ReturnLoan noFaults s loanId now = ⟨false, s, some .alreadyReturned⟩ := by
  unfold ReturnLoan noFaults
  simp [hfl, hrd]

lemma returnLoan_success {s : Store} {loanId : Int} {l : Loan}
    (hfl : findLoan s.loans loanId = some l) (hrd : l.returnDate = none)
    (now : Int) :
    ReturnLoan noFaults s loanId now =
      ⟨true,
       ⟨updateStock s.books l.bookId 1,
        setReturnDate s.loans loanId now,
        s.nextLoanId⟩,
       none⟩ := by
  unfold ReturnLoan noFaults
  simp [hfl, hrd]

lemma updateStock_no_match {books : List Book} {bookId : Int}
    (h : ∀ b ∈ books, b.id ≠ bookId) (delta : Int) :
    updateStock books bookId delta = books := by
  unfold updateStock
  have hcg : ∀ b ∈ books,
      (if b.id == bookId then { b with stock := b.stock + delta } else b) = id b := by
    intro b hb
    simp [beq_iff_eq, h b hb]
  rw [List.map_congr_left hcg, List.map_id]

/-- C3: a borrow on an existing book whose stock is `<= 0` fails with
the no-stock error (surfaced by the handler as HTTP 409), creates no
loan row, and leaves the observable store exactly unchanged. -/
theorem borrow_noStock_conflict (s : Store) (bookId userId now : Int) (b : Book)
    (hfb : findBook s.books bookId = some b) (hst : b.stock ≤ 0) :
    (CreateLoan noFaults s bookId userId now).err = some .noStock ∧
    commitState s (CreateLoan noFaults s bookId userId now) = s ∧
    createLoanStatus .noStock = 409 := by
  have h := createLoan_noStock hfb hst userId now
  exact ⟨by rw [h], by rw [h]; rfl, rfl⟩

/-- A store whose only book has stock 0, with no loans yet. -/
def soldOutStore : Store :=
  ⟨[⟨2, "Neuromancer", "1984-07-01", "9780441569595", 0, 1⟩], [], 1⟩

/-- Witness for `borrow_noStock_conflict` on the sold-out store. -/
theorem borrow_noStock_conflict_witness :
    (CreateLoan noFaults soldOutStore 2 7 100).err = some .noStock ∧
    commitState soldOutStore (CreateLoan noFaults soldOutStore 2 7 100) = soldOutStore ∧
    createLoanStatus .noStock = 409 :=
  borrow_noStock_conflict soldOutStore 2 7 100
    ⟨2, "Neuromancer", "1984-07-01", "9780441569595", 0, 1⟩ (by decide) (by decide)

/-- C4: a return on a loan whose return date is already set fails with
the already-returned error (surfaced by the handler as HTTP 409) and
mutates nothing: the loan row and every book's stock are unchanged. -/
theorem return_alreadyReturned_conflict (s : Store) (loanId now : Int) (l : Loan) (d : Int)
    (hfl : findLoan s.loans loanId = some l) (hrd : l.returnDate = some d) :
    (ReturnLoan noFaults s loanId now).err = some .alreadyReturned ∧
    commitState s (ReturnLoan noFaults s loanId now) = s ∧
    returnLoanStatus .alreadyReturned = 409 := by
  have h := returnLoan_alreadyReturned hfl hrd now
  exact ⟨by rw [h], by rw [h]; rfl, rfl⟩

/-- Witness for `return_alreadyReturned_conflict`: demo loan 5 already
carries return date 60. -/
theorem return_alreadyReturned_conflict_witness :
    (ReturnLoan noFaults demoStore 5 200).err = some .alreadyReturned ∧
    commitState demoStore (ReturnLoan noFaults demoStore 5 200) = demoStore ∧
    returnLoanStatus .alreadyReturned = 409 :=
  return_alreadyReturned_conflict demoStore 5 200 ⟨5, 1, 7, 50, some 60⟩ 60
    (by decide) (by decide)

lemma findLoan_setReturnDate_self (loans : List Loan) (loanId now : Int) :
    findLoan (setReturnDate loans loanId now) loanId =
      (findLoan loans loanId).map (fun l => { l with returnDate := some now }) := by
  unfold findLoan setReturnDate
  rw [List.find?_map]
  have hcomp : ((fun l : Loan => l.id == loanId) ∘
      fun l => if l.id == loanId then { l with returnDate := some now } else l) =
      fun l : Loan => l.id == loanId := by
    funext x
    by_cases h : x.id = loanId <;> simp [beq_iff_eq, h]
  rw [hcomp]
  cases hfl : loans.find? (fun l => l.id == loanId) with
  | none => rfl
  | some l0 =>
    have hp : (l0.id == loanId) = true :=
      List.find?_some (p := fun x : Loan => x.id == loanId) hfl
    have hid : l0.id = loanId := by simpa using hp
    simp [hid]

/-- C10: returning an active loan whose book row has been deleted
still succeeds: the transaction sets the loan's return date and
commits with no error, while the stock `UPDATE` matches zero rows
(its rows-affected count is never checked), so no book's stock is
incremented and the returned unit is silently lost. -/
theorem return_deleted_book_silent_success (s : Store) (loanId now : Int) (l : Loan)
    (hfl : findLoan s.loans loanId = some l) (hrd : l.returnDate = none)
    (hnb : findBook s.books l.bookId = none) :
    (ReturnLoan noFaults s loanId now).err = none ∧
    commitState s (ReturnLoan noFaults s loanId now) =
      { s with loans := setReturnDate s.loans loanId now } ∧
    (commitState s (ReturnLoan noFaults s loanId now)).books = s.books ∧
    findLoan (commitState s (ReturnLoan noFaults s loanId now)).loans loanId =
      some { l with returnDate := some now } := by
  have h := returnLoan_success hfl hrd now
  have hub : updateStock s.books l.bookId 1 = s.books :=
    updateStock_no_match (findBook_none hnb) 1
  refine ⟨by rw [h], ?_, ?_, ?_⟩
  · rw [h]
    simp [commitState, hub]
  · rw [h]
    simp [commitState, hub]
  · rw [h]
    simp only [commitState, if_true]
    rw [findLoan_setReturnDate_self, hfl]
    rfl

/-- A store holding an active loan (id 9) whose book row (id 3) has
been deleted. -/
def orphanLoanStore : Store := ⟨[], [⟨9, 3, 7, 80, none⟩], 10⟩

/-- Witness for `return_deleted_book_silent_success` on the orphaned
loan: the return reports success, closes the loan, and changes no
book row. -/
theorem return_deleted_book_silent_success_witness :
    (ReturnLoan noFaults orphanLoanStore 9 300).err = none ∧
    commitState orphanLoanStore (ReturnLoan noFaults orphanLoanStore 9 300) =
      { orphanLoanStore with loans := setReturnDate orphanLoanStore.loans 9 300 } ∧
    (commitState orphanLoanStore (ReturnLoan noFaults orphanLoanStore 9 300)).books =
      orphanLoanStore.books ∧
    findLoan (commitState orphanLoanStore (ReturnLoan noFaults orphanLoanStore 9 300)).loans 9 =
      some ⟨9, 3, 7, 80, some 300⟩ :=
  return_deleted_book_silent_success orphanLoanStore 9 300 ⟨9, 3, 7, 80, none⟩
    (by decide) (by decide) (by decide)

/-! ### The borrow-then-return round trip -/

lemma findLoan_append_fresh {loans : List Loan} {loanId : Int}
    (h : ∀ l ∈ loans, l.id ≠ loanId) (l2 : List Loan) :
    findLoan (loans ++ l2) loanId = findLoan l2 loanId := by
  unfold findLoan
  rw [List.find?_append]
  have hn : loans.find? (fun l => l.id == loanId) = none :=
    List.find?_eq_none.mpr (by intro x hx; simpa using h x hx)
  rw [hn, Option.none_or]

lemma setReturnDate_no_match {loans : List Loan} {loanId : Int}
    (h : ∀ l ∈ loans, l.id ≠ loanId) (now : Int) :
    setReturnDate loans loanId now = loans := by
  unfold setReturnDate
  have hcg : ∀ l ∈ loans,
      (if l.id == loanId then { l with returnDate := some now } else l) = id l := by
    intro l hl
    simp [beq_iff_eq, h l hl]
  rw [List.map_congr_left hcg, List.map_id]

lemma updateStock_cancel (books : List Book) (bookId : Int) :
    updateStock (updateStock books bookId (-1)) bookId 1 = books := by
  unfold updateStock
  rw [List.map_map]
  have hcg : ∀ b ∈ books,
      ((fun b : Book => if b.id == bookId then { b with stock := b.stock + 1 } else b) ∘
       (fun b : Book => if b.id == bookId then { b with stock := b.stock + (-1) } else b)) b
        = id b := by
    intro b _
    by_cases h : b.id = bookId
    · subst h
      simp only [Function.comp_apply, beq_self_eq_true, if_true, id]
      have harith : b.stock + (-1) + 1 = b.stock := by omega
      rw [harith]
    · simp [Function.comp, beq_iff_eq, h]
  rw [List.map_congr_left hcg, List.map_id]

/-- The round-trip scenario: a fault-free borrow immediately followed
by a fault-free return of the loan the borrow created. -/
def borrowThenReturn (s : Store) (bookId userId now1 now2 : Int) :
    Store × Option RepoError × Option RepoError :=
  let t1 := CreateLoan noFaults s bookId userId now1
  let s1 := commitState s t1
  let t2 := ReturnLoan noFaults s1 s.nextLoanId now2
  (commitState s1 t2, t1.err, t2.err)

/-- C5: on a book with positive stock, a successful borrow followed by
a successful return of the created loan restores every book row
exactly (in particular the borrowed book's stock) and leaves exactly
one loan row for that borrow, closed with the return date. -/
theorem borrow_return_roundTrip (s : Store) (bookId userId now1 now2 : Int) (b : Book)
    (hfb : findBook s.books bookId = some b) (hst : 0 < b.stock)
    (hfresh : ∀ l ∈ s.loans, l.id ≠ s.nextLoanId) :
    (borrowThenReturn s bookId userId now1 now2).2.1 = none ∧
    (borrowThenReturn s bookId userId now1 now2).2.2 = none ∧
    (borrowThenReturn s bookId userId now1 now2).1.books = s.books ∧
    (borrowThenReturn s bookId userId now1 now2).1.loans.filter
        (fun l => l.id == s.nextLoanId) =
      [⟨s.nextLoanId, bookId, userId, now1, some now2⟩] := by
  have h1 := createLoan_success hfb hst userId now1
  have hfl : findLoan (s.loans ++ [(⟨s.nextLoanId, bookId, userId, now1, none⟩ : Loan)])
      s.nextLoanId = some ⟨s.nextLoanId, bookId, userId, now1, none⟩ := by
    rw [findLoan_append_fresh hfresh]
    simp [findLoan]
  have h2 : ReturnLoan noFaults
      (⟨updateStock s.books bookId (-1),
        s.loans ++ [⟨s.nextLoanId, bookId, userId, now1, none⟩],
        s.nextLoanId + 1⟩ : Store) s.nextLoanId now2 =
      ⟨true,
       ⟨updateStock (updateStock s.books bookId (-1)) bookId 1,
        setReturnDate (s.loans ++ [⟨s.nextLoanId, bookId, userId, now1, none⟩])
          s.nextLoanId now2,
        s.nextLoanId + 1⟩,
       none⟩ :=
    returnLoan_success hfl rfl now2
  have hloans : setReturnDate (s.loans ++ [⟨s.nextLoanId, bookId, userId, now1, none⟩])
      s.nextLoanId now2 =
      s.loans ++ [⟨s.nextLoanId, bookId, userId, now1, some now2⟩] := by
    unfold setReturnDate
    rw [List.map_append]
    congr 1
    · exact setReturnDate_no_match hfresh now2
    · simp
  have hfilter : (s.loans ++ [(⟨s.nextLoanId, bookId, userId, now1, some now2⟩ : Loan)]).filter
      (fun l => l.id == s.nextLoanId) =
      [⟨s.nextLoanId, bookId, userId, now1, some now2⟩] := by
    rw [List.filter_append]
    have h0 : s.loans.filter (fun l => l.id == s.nextLoanId) = [] :=
      List.filter_eq_nil_iff.mpr (by intro l hl; simpa using hfresh l hl)
    rw [h0]
    simp
  unfold borrowThenReturn
  rw [h1]
  simp only [commitState, if_true]
  rw [h2]
  simp only [commitState, if_true]
  refine ⟨by trivial, by trivial, ?_, ?_⟩
  · exact updateStock_cancel s.books bookId
  · rw [hloans]
    exact hfilter

/-- Witness for `borrow_return_roundTrip` on the demo store: borrowing
book 1 and returning the created loan 6 restores stock 3 and leaves
loan 6 closed. -/
theorem borrow_return_roundTrip_witness :
    (borrowThenReturn demoStore 1 7 100 200).2.1 = none ∧
    (borrowThenReturn demoStore 1 7 100 200).2.2 = none ∧
    (borrowThenReturn demoStore 1 7 100 200).1.books = demoStore.books ∧
    (borrowThenReturn demoStore 1 7 100 200).1.loans.filter (fun l => l.id == 6) =
      [⟨6, 1, 7, 100, some 200⟩] :=
  borrow_return_roundTrip demoStore 1 7 100 200
    ⟨1, "Dune", "1965-08-01", "9780441013593", 3, 1⟩
    (by decide) (by decide) (by decide)

/-! ### N borrow attempts against a single copy -/

lemma findBook_updateStock_self (books : List Book) (bookId delta : Int) :
    findBook (updateStock books bookId delta) bookId =
      (findBook books bookId).map (fun b => { b with stock := b.stock + delta }) := by
  unfold findBook updateStock
  rw [List.find?_map]
  have hcomp : ((fun b : Book => b.id == bookId) ∘
      fun b => if b.id == bookId then { b with stock := b.stock + delta } else b) =
      fun b : Book => b.id == bookId := by
    funext x
    by_cases h : x.id = bookId <;> simp [beq_iff_eq, h]
  rw [hcomp]
  cases hfb : books.find? (fun b => b.id == bookId) with
  | none => rfl
  | some b0 =>
    have hp : (b0.id == bookId) = true :=
      List.find?_some (p := fun x : Book => x.id == bookId) hfb
    have hid : b0.id = bookId := by simpa using hp
    simp [hid]

/-- A sequence of borrow attempts against the same book, executed in
the serialization order imposed by the store's atomic transactions;
each entry is `(userId, now)` for one attempt, and the outcome list
records each attempt's repository error (`none` on success). -/
def borrowSeq : Store → Int → List (Int × Int) → Store × List (Option RepoError)
  | s, _, [] => (s, [])
  | s, bookId, (userId, now) :: rest =>
    let t := CreateLoan noFaults s bookId userId now
    let r := borrowSeq (commitState s t) bookId rest
    (r.1, t.err :: r.2)

lemma borrowSeq_soldOut {s : Store} {bookId : Int} {b : Book}
    (hfb : findBook s.books bookId = some b) (hst : b.stock ≤ 0) :
    ∀ attempts : List (Int × Int),
      borrowSeq s bookId attempts = (s, attempts.map fun _ => some RepoError.noStock) := by
  intro attempts
  induction attempts with
  | nil => rfl
  | cons a rest ih =>
    obtain ⟨userId, now⟩ := a
    have h := createLoan_noStock hfb hst userId now
    simp only [borrowSeq, h]
    rw [show commitState s ⟨false, s, some .noStock⟩ = s from rfl, ih]
    simp

/-- C6: with the store's transactions serializing the attempts, N >= 1
borrow attempts against a book with stock 1 produce exactly one
success and N-1 no-stock conflicts, and the book's final stock is 0. -/
theorem concurrent_borrows_single_success (s : Store) (bookId userId now : Int)
    (rest : List (Int × Int)) (b : Book)
    (hfb : findBook s.books bookId = some b) (hst : b.stock = 1) :
    (borrowSeq s bookId ((userId, now) :: rest)).2.count none = 1 ∧
    (borrowSeq s bookId ((userId, now) :: rest)).2.count (some .noStock) = rest.length ∧
    findBook (borrowSeq s bookId ((userId, now) :: rest)).1.books bookId =
      some { b with stock := 0 } := by
  have hpos : 0 < b.stock := by omega
  have h1 := createLoan_success hfb hpos userId now
  have hfb1 : findBook
      ((⟨updateStock s.books bookId (-1),
         s.loans ++ [⟨s.nextLoanId, bookId, userId, now, none⟩],
         s.nextLoanId + 1⟩ : Store)).books bookId =
      some { b with stock := b.stock + (-1) } := by
    show findBook (updateStock s.books bookId (-1)) bookId = _
    rw [findBook_updateStock_self, hfb]
    rfl
  have hz : ({ b with stock := b.stock + (-1) } : Book).stock ≤ 0 := by
    show b.stock + (-1) ≤ 0
    omega
  have hrest := borrowSeq_soldOut hfb1 hz rest
  have hzero : b.stock + (-1) = 0 := by omega
  simp only [borrowSeq, h1]
  rw [show commitState s
      ⟨true,
       ⟨updateStock s.books bookId (-1),
        s.loans ++ [⟨s.nextLoanId, bookId, userId, now, none⟩],
        s.nextLoanId + 1⟩,
       none⟩ =
      ⟨updateStock s.books bookId (-1),
       s.loans ++ [⟨s.nextLoanId, bookId, userId, now, none⟩],
       s.nextLoanId + 1⟩ from rfl, hrest]
  refine ⟨?_, ?_, ?_⟩
  · simp [List.count_cons, List.count_replicate]
  · simp [List.count_cons, List.count_replicate]
  · show findBook (updateStock s.books bookId (-1)) bookId = some { b with stock := 0 }
    rw [findBook_updateStock_self, hfb, Option.map_some']
    rw [hzero]

/-- A store with a single copy of book 4 and no loans yet. -/
def oneCopyStore : Store :=
  ⟨[⟨4, "Solaris", "1961-06-01", "9780156027601", 1, 2⟩], [], 1⟩

/-- Witness for `concurrent_borrows_single_success`: three borrow
attempts against the single copy of book 4 produce one success, two
no-stock conflicts, and final stock 0. -/
theorem concurrent_borrows_single_success_witness :
    (borrowSeq oneCopyStore 4 [(7, 100), (8, 101), (9, 102)]).2.count none = 1 ∧
    (borrowSeq oneCopyStore 4 [(7, 100), (8, 101), (9, 102)]).2.count (some .noStock) = 2 ∧
    findBook (borrowSeq oneCopyStore 4 [(7, 100), (8, 101), (9, 102)]).1.books 4 =
      some ⟨4, "Solaris", "1961-06-01", "9780156027601", 0, 2⟩ :=
  concurrent_borrows_single_success oneCopyStore 4 7 100 [(8, 101), (9, 102)]
    ⟨4, "Solaris", "1961-06-01", "9780156027601", 1, 2⟩ (by decide) (by decide)

/-! ### The book search ORDER BY construction (`Search`) -/

/-- The allow-list of sort keys (`allowedSortFields` in `Search`). -/
def allowedSortFields : List String := ["title", "published_date", "author", "stock"]

/-- The SQL column used for a sort key: `a.name` for `author`,
`b.<key>` otherwise. -/
def sortField (sort : String) : String :=
  if sort = "author" then "a.name" else "b." ++ sort

/-- Go's `unicode.ToUpper` (the simple case mapping `strings.ToUpper`
applies rune by rune), on the code points the `ASC`/`DESC` comparison
below can ever be decided by: ASCII lowercase maps to ASCII uppercase,
and `ſ` (U+017F, the one code point outside ASCII whose simple
uppercase mapping is a letter of `ASC`/`DESC`) maps to `S`.  Every
other character is left unchanged; since no other code point
uppercases into the letters `A`, `S`, `C`, `D`, `E`, a string's image
here equals `"ASC"` or `"DESC"` exactly when its `strings.ToUpper`
image does, so the guard below agrees with the Go source on every
input. -/
def upperChar (c : Char) : Char :=
  if 'a' ≤ c ∧ c ≤ 'z' then Char.ofNat (c.toNat - 32)
  else if c = 'ſ' then 'S'
  else c

/-- `strings.ToUpper` of the Go source, character by character. -/
def upperStr (s : String) : String := ⟨s.data.map upperChar⟩

/-- ASCII-only case folding: this definition follows the SPEC's words
("compared case-insensitively", in the ordinary ASCII reading) rather
than the source, and exists only to state the claim being compared
against the source's Unicode-aware guard. -/
def specUpperChar (c : Char) : Char :=
  if 'a' ≤ c ∧ c ≤ 'z' then Char.ofNat (c.toNat - 32) else c

/-- ASCII-only case folding of a string (the spec-side definition). -/
def specUpperStr (s : String) : String := ⟨s.data.map specUpperChar⟩

/-- The direction normalization of `Search`: any order whose
upper-casing is neither `ASC` nor `DESC` is replaced by `ASC`. -/
def normalizeOrder (order : String) : String :=
  if upperStr order ≠ "ASC" ∧ upperStr order ≠ "DESC" then "ASC" else order

/-- The ORDER BY clause `Search` appends: `none` (no ORDER BY, natural
store order) when the sort key is off the allow-list, otherwise the
resolved column and the normalized direction. -/
def orderByClause (sort order : String) : Option (String × String) :=
  if allowedSortFields.contains sort then some (sortField sort, normalizeOrder order)
  else none

/-- C7 counterexample: with the allow-listed key `title` and the
direction `deſc` (long s, U+017F), the order value is other than
`asc`/`desc` under ASCII case-insensitive comparison — so the claim
says it is normalized to ascending — yet `Search` does not normalize
it: Go's Unicode `ToUpper` maps `ſ` to `S`, the guard accepts the
value, and the raw string `deſc` is emitted as the applied direction,
which is not a casing of either keyword. -/
theorem search_orderBy_direction_counterexample :
    orderByClause "title" "deſc" = some ("b.title", "deſc") ∧
    specUpperStr "deſc" ≠ "ASC" ∧ specUpperStr "deſc" ≠ "DESC" := by
  decide

/-- C7 (amended): an ORDER BY is applied exactly for the four
allow-listed sort keys, and for no other key; the direction guard
compares through Go's Unicode `ToUpper`, so an order value whose
`ToUpper` image is neither `ASC` nor `DESC` is normalized to
ascending, while one whose image is `ASC` or `DESC` is passed through
verbatim — hence the applied direction always Unicode-upper-cases to
`ASC` or `DESC`, but need not be literally one of the two keywords
(`deſc` is emitted raw). -/
theorem search_orderBy_allowList (sort order : String) :
    ((orderByClause sort order).isSome = true ↔
      (sort = "title" ∨ sort = "published_date" ∨ sort = "author" ∨ sort = "stock")) ∧
    (∀ f o, orderByClause sort order = some (f, o) →
      ((upperStr o = "ASC" ∨ upperStr o = "DESC") ∧
       ((upperStr order ≠ "ASC" ∧ upperStr order ≠ "DESC") → o = "ASC") ∧
       ((upperStr order = "ASC" ∨ upperStr order = "DESC") → o = order))) := by
  have hmem : allowedSortFields.contains sort = true ↔
      (sort = "title" ∨ sort = "published_date" ∨ sort = "author" ∨ sort = "stock") := by
    constructor
    · intro h
      have hm : sort ∈ allowedSortFields := by
        simpa using h
      simpa [allowedSortFields, eq_comm] using hm
    · intro h
      have hm : sort ∈ allowedSortFields := by
        unfold allowedSortFields
        rcases h with h | h | h | h <;> simp [h]
      simpa using hm
  constructor
  · by_cases hc : allowedSortFields.contains sort = true
    · unfold orderByClause
      rw [if_pos hc]
      simp only [Option.isSome_some, true_iff]
      exact hmem.mp hc
    · unfold orderByClause
      rw [if_neg hc]
      simp only [Option.isSome_none]
      constructor
      · intro h
        exact absurd h (by simp)
      · intro h
        exact absurd (hmem.mpr h) hc
  · intro f o h
    unfold orderByClause at h
    by_cases hc : allowedSortFields.contains sort = true
    · rw [if_pos hc] at h
      simp only [Option.some.injEq, Prod.mk.injEq] at h
      obtain ⟨-, ho⟩ := h
      by_cases hA : upperStr order = "ASC"
      · have hcond : ¬(upperStr order ≠ "ASC" ∧ upperStr order ≠ "DESC") := by tauto
        have ho2 : o = order := by
          rw [← ho]
          unfold normalizeOrder
          rw [if_neg hcond]
        refine ⟨Or.inl (by rw [ho2, hA]), ?_, fun _ => ho2⟩
        intro hcontra
        exact absurd hA hcontra.1
      · by_cases hD : upperStr order = "DESC"
        · have hcond : ¬(upperStr order ≠ "ASC" ∧ upperStr order ≠ "DESC") := by tauto
          have ho2 : o = order := by
            rw [← ho]
            unfold normalizeOrder
            rw [if_neg hcond]
          refine ⟨Or.inr (by rw [ho2, hD]), ?_, fun _ => ho2⟩
          intro hcontra
          exact absurd hD hcontra.2
        · have hcond : upperStr order ≠ "ASC" ∧ upperStr order ≠ "DESC" := ⟨hA, hD⟩
          have ho2 : o = "ASC" := by
            rw [← ho]
            unfold normalizeOrder
            rw [if_pos hcond]
          refine ⟨Or.inl (by rw [ho2]; rfl), fun _ => ho2, ?_⟩
          intro hcontra
          tauto
    · rw [if_neg hc] at h
      exact absurd h (by simp)

/-- Witness for `search_orderBy_allowList`: sorting by `stock` with
the unknown direction `weird` yields an ORDER BY whose direction
normalizes to ascending, and the `isbn` key is off the allow-list. -/
theorem search_orderBy_allowList_witness :
    ((upperStr "ASC" = "ASC" ∨ upperStr "ASC" = "DESC") ∧ "ASC" = "ASC") ∧
    ¬(orderByClause "isbn" "asc").isSome = true := by
  constructor
  · have h := (search_orderBy_allowList "stock" "weird").2 "b.stock" "ASC" (by decide)
    exact ⟨h.1, h.2.1 (by decide)⟩
  · intro h
    have hiff := (search_orderBy_allowList "isbn" "asc").1
    have := hiff.mp h
    simp at this

/-! ### Loan queries and the nullable return-date mapping -/

/-- JSON values for the fields this development talks about. -/
inductive Json where
  | num (n : Int)
  | str (s : String)
deriving Repr, DecidableEq

/-- `encoding/json` on `models.Loan`: `return_date` is a nil-able
pointer tagged `omitempty`, so its key is emitted exactly when the
pointer is non-nil; the other scalar fields are always emitted. -/
def marshalLoan (l : Loan) : List (String × Json) :=
  [("id", .num l.id), ("book_id", .num l.bookId), ("user_id", .num l.userId),
   ("loan_date", .num l.loanDate)] ++
  (match l.returnDate with
   | some t => [("return_date", .num t)]
   | none => [])

/-- The `SearchLoans` row scan: `return_date` lands in a
`sql.NullTime`, and `loan.ReturnDate` is assigned the value exactly
when `Valid` (otherwise it stays the nil zero value). -/
def scanSearchLoanRow (lid loanDate : Int) (returnDate : Option Int) (bid uid : Int) : Loan :=
  { id := lid, bookId := bid, userId := uid, loanDate := loanDate,
    returnDate :=
      match returnDate with
      | some t => some t
      | none => none }

/-- The `SearchLoans` status filter: `active` keeps NULL return dates,
`returned` keeps non-NULL ones, anything else filters nothing. -/
def statusPred (status : Option String) (l : Loan) : Bool :=
  match status with
  | some st =>
    if st = "active" then l.returnDate.isNone
    else if st = "returned" then l.returnDate.isSome
    else true
  | none => true

/-- `SearchLoans`: the joined query filtered by status, each row put
through the scan above (join columns beyond the loan are elided). -/
def SearchLoans (s : Store) (status : Option String) : List Loan :=
  (s.loans.filter (statusPred status)).map
    (fun l => scanSearchLoanRow l.id l.loanDate l.returnDate l.bookId l.userId)

/-- `GetActiveLoansByUserID`: the query keeps only the user's rows
with `return_date IS NULL`, and its scan reads neither the return-date
nor the user-id column, so those output fields keep their zero values
(nil pointer and 0). -/
def GetActiveLoansByUserID (s : Store) (userId : Int) : List Loan :=
  (s.loans.filter (fun l => l.userId == userId && l.returnDate.isNone)).map
    (fun l => { id := l.id, bookId := l.bookId, userId := 0,
                loanDate := l.loanDate, returnDate := none })

lemma marshalLoan_lookup_returnDate (l : Loan) :
    (marshalLoan l).lookup "return_date" = l.returnDate.map Json.num := by
  cases hr : l.returnDate <;> simp [marshalLoan, hr, List.lookup]

/-- C8: in both loan query results, the `return_date` output key is
absent exactly when the stored return-date column is NULL and carries
the stored value exactly when it is set: the `SearchLoans` scan maps
the nullable column through the optional field one-to-one, and the
active-loans query only ever emits rows whose stored column is NULL,
with the key absent. -/
theorem returnDate_optional_mapping (s : Store) (status : Option String) (userId : Int) :
    (∀ lid loanDate returnDate bid uid,
      (marshalLoan (scanSearchLoanRow lid loanDate returnDate bid uid)).lookup "return_date"
        = returnDate.map Json.num) ∧
    (∀ out ∈ SearchLoans s status, ∃ l ∈ s.loans,
      statusPred status l = true ∧ out.returnDate = l.returnDate ∧
      (marshalLoan out).lookup "return_date" = l.returnDate.map Json.num) ∧
    (∀ out ∈ GetActiveLoansByUserID s userId,
      (marshalLoan out).lookup "return_date" = none ∧
      ∃ l ∈ s.loans, l.id = out.id ∧ l.returnDate = none) := by
  refine ⟨?_, ?_, ?_⟩
  · intro lid loanDate returnDate bid uid
    rw [marshalLoan_lookup_returnDate]
    cases returnDate <;> rfl
  · intro out hout
    unfold SearchLoans at hout
    rcases List.mem_map.mp hout with ⟨l, hl, rfl⟩
    have hfl := List.mem_filter.mp hl
    refine ⟨l, hfl.1, hfl.2, ?_, ?_⟩
    · cases hr : l.returnDate <;> simp [scanSearchLoanRow, hr]
    · rw [marshalLoan_lookup_returnDate]
      cases hr : l.returnDate <;> simp [scanSearchLoanRow, hr]
  · intro out hout
    unfold GetActiveLoansByUserID at hout
    rcases List.mem_map.mp hout with ⟨l, hl, rfl⟩
    have hfl := List.mem_filter.mp hl
    have hnone : l.returnDate = none := by
      have := hfl.2
      simp only [Bool.and_eq_true, Option.isNone_iff_eq_none] at this
      exact this.2
    exact ⟨by rw [marshalLoan_lookup_returnDate]; rfl, l, hfl.1, rfl, hnone⟩

/-- Witness for `returnDate_optional_mapping` on the demo store: the
stored return date 60 of loan 5 appears as the `return_date` value,
and an active-loans result for user 7 omits the key. -/
theorem returnDate_optional_mapping_witness :
    (marshalLoan (scanSearchLoanRow 5 50 (some 60) 1 7)).lookup "return_date"
      = some (Json.num 60) ∧
    (marshalLoan (scanSearchLoanRow 9 80 none 3 7)).lookup "return_date" = none :=
  ⟨(returnDate_optional_mapping demoStore none 7).1 5 50 (some 60) 1 7,
   (returnDate_optional_mapping demoStore none 7).1 9 80 none 3 7⟩

/-! ### Role-based authorization (`RoleRequiredMiddleware`) -/

/-- `RoleRequiredMiddleware`: a handler is a store transformer
returning a status code; with no authenticated user in the request
context the middleware answers 401, with a user whose role differs
from the required one it answers 403 without running the handler, and
otherwise it runs the handler. -/
def RoleRequiredMiddleware (requiredRole : String) (next : Store → Store × Nat)
    (ctxUser : Option User) (s : Store) : Store × Nat :=
  match ctxUser with
  | none => (s, 401)
  | some u => if u.role = requiredRole then next s else (s, 403)

/-- `CreateBookHandler`'s persistence effect once validation passes:
`BookRepo.Create` INSERTs the row and the handler responds 201 (the
id the store's autoincrement assigns is abstracted as the row given). -/
def CreateBookHandler (input : Book) (s : Store) : Store × Nat :=
  ({ s with books := s.books ++ [input] }, 201)

/-- C9: for a request carrying an authenticated identity, the gate
runs the handler iff the identity's role string equals the required
role exactly, and otherwise answers 403 with the store untouched; in
particular a non-librarian hitting Create Book gets 403 and no book
row is inserted. -/
theorem roleRequired_exact_match (requiredRole : String) (u : User)
    (next : Store → Store × Nat) (s : Store) :
    (u.role = requiredRole →
      RoleRequiredMiddleware requiredRole next (some u) s = next s) ∧
    (u.role ≠ requiredRole →
      RoleRequiredMiddleware requiredRole next (some u) s = (s, 403)) ∧
    (∀ input : Book, u.role ≠ "librarian" →
      (RoleRequiredMiddleware "librarian" (CreateBookHandler input) (some u) s).1.books
        = s.books ∧
      (RoleRequiredMiddleware "librarian" (CreateBookHandler input) (some u) s).2 = 403) := by
  refine ⟨?_, ?_, ?_⟩
  · intro h
    simp [RoleRequiredMiddleware, h]
  · intro h
    simp [RoleRequiredMiddleware, h]
  · intro input h
    simp [RoleRequiredMiddleware, h]

/-- Witness for `roleRequired_exact_match`: a member hitting the
librarian-gated Create Book route gets 403 and inserts nothing, while
a librarian reaches the handler. -/
theorem roleRequired_exact_match_witness :
    (RoleRequiredMiddleware "librarian"
        (CreateBookHandler ⟨0, "Ubik", "1969-01-01", "9780547572291", 2, 1⟩)
        (some ⟨7, "alice", "member"⟩) demoStore).1.books = demoStore.books ∧
    (RoleRequiredMiddleware "librarian"
        (CreateBookHandler ⟨0, "Ubik", "1969-01-01", "9780547572291", 2, 1⟩)
        (some ⟨7, "alice", "member"⟩) demoStore).2 = 403 ∧
    RoleRequiredMiddleware "librarian"
        (CreateBookHandler ⟨0, "Ubik", "1969-01-01", "9780547572291", 2, 1⟩)
        (some ⟨8, "bob", "librarian"⟩) demoStore =
      CreateBookHandler ⟨0, "Ubik", "1969-01-01", "9780547572291", 2, 1⟩ demoStore := by
  refine ⟨?_, ?_, ?_⟩
  · exact ((roleRequired_exact_match "librarian" ⟨7, "alice", "member"⟩
      (CreateBookHandler ⟨0, "Ubik", "1969-01-01", "9780547572291", 2, 1⟩) demoStore).2.2
      ⟨0, "Ubik", "1969-01-01", "9780547572291", 2, 1⟩ (by decide)).1
  · exact ((roleRequired_exact_match "librarian" ⟨7, "alice", "member"⟩
      (CreateBookHandler ⟨0, "Ubik", "1969-01-01", "9780547572291", 2, 1⟩) demoStore).2.2
      ⟨0, "Ubik", "1969-01-01", "9780547572291", 2, 1⟩ (by decide)).2
  · exact (roleRequired_exact_match "librarian" ⟨8, "bob", "librarian"⟩
      (CreateBookHandler ⟨0, "Ubik", "1969-01-01", "9780547572291", 2, 1⟩) demoStore).1
      (by decide)

end Librarium
